import Mathlib

/-!
Shallow embedding of the NEAR NFT marketplace contract (src/lib.rs and
src/internal.rs) and proofs about its behaviour.

Conventions of the embedding:
* `u128`/`u64` values are modelled as `Nat`; arithmetic that the source
  performs with overflow checks is modelled with `checkedAdd`/`checkedSub`/
  `checkedMul` returning `Option Nat` (overflow = panic = `none`), and the
  source's `saturating_mul`/`saturating_div`/`saturating_sub` are modelled
  with `saturatingMul`, `Nat./` and `Nat.-` (truncated subtraction is
  already saturating on `Nat`).
* `UnorderedMap`/`LookupMap` become association lists with the lookup,
  insert-or-replace and remove operations `mget`, `mput`, `mdel`;
  `UnorderedSet` becomes a list with remove `sdel`.
* Every contract method returns `Option`: `none` models a panic, which on
  NEAR aborts the transaction with no state change; `some` carries the new
  contract state (plus, where relevant, the outgoing transfers or the
  scheduled settlement).
* Ambient host inputs (signer, predecessor, attached deposit, block
  timestamp) are gathered in an `Env` value passed to each method.
-/

/-- Account identifiers, as arbitrary strings. -/
abbrev AccountId := String

/-- Storage price per byte from near-sdk (10^19 yoctoNEAR). -/
def STORAGE_PRICE_PER_BYTE : Nat := 10000000000000000000

/-- Minimum storage quota per sale: `1000 * STORAGE_PRICE_PER_BYTE`. -/
def STORAGE_PER_SALE : Nat := 1000 * STORAGE_PRICE_PER_BYTE

/-- Largest value representable in a `u128`. -/
def U128MAX : Nat := 2 ^ 128 - 1

/-- Delimiter between contract id and token id in the composite key. -/
def DELIMETER : String := "."

/-- Composite listing key `format!("{}{}{}", nft_address, DELIMETER, token_id)`. -/
def compositeKey (nft_address token_id : String) : String :=
  nft_address ++ DELIMETER ++ token_id

/-- Checked `u128` addition: panics (`none`) on overflow. -/
def checkedAdd (a b : Nat) : Option Nat :=
  if a + b ≤ U128MAX then some (a + b) else none

/-- Checked `u128` subtraction: panics (`none`) on underflow. -/
def checkedSub (a b : Nat) : Option Nat :=
  if b ≤ a then some (a - b) else none

/-- Checked `u128` multiplication: panics (`none`) on overflow. -/
def checkedMul (a b : Nat) : Option Nat :=
  if a * b ≤ U128MAX then some (a * b) else none

/-- `u128::saturating_mul`. -/
def saturatingMul (a b : Nat) : Nat :=
  min (a * b) U128MAX

/-- Association-list lookup, modelling `UnorderedMap::get` / `LookupMap::get`. -/
def mget {α : Type} : List (String × α) → String → Option α
  | [], _ => none
  | (k, v) :: rest, key => if k = key then some v else mget rest key

/-- Association-list removal, modelling `UnorderedMap::remove` / `LookupMap::remove`. -/
def mdel {α : Type} : List (String × α) → String → List (String × α)
  | [], _ => []
  | (k, v) :: rest, key => if k = key then mdel rest key else (k, v) :: mdel rest key

/-- Association-list insert-or-replace, modelling `UnorderedMap::insert`. -/
def mput {α : Type} (m : List (String × α)) (key : String) (v : α) : List (String × α) :=
  (key, v) :: mdel m key

/-- Set-element removal, modelling `UnorderedSet::remove`. -/
def sdel : List String → String → List String
  | [], _ => []
  | x :: rest, key => if x = key then sdel rest key else x :: sdel rest key

/-- A listing stored by the marketplace (struct `Listing` in lib.rs). -/
structure Listing where
  seller : AccountId
  approval_id : Nat
  nft_contract_id : String
  token_id : String
  starting_price : Nat
  started_at : Nat
  end_at : Nat
  highest_bidder : Option AccountId
  highest_price : Nat
  is_auction : Bool
  deriving Repr, DecidableEq

/-- The marketplace contract state (struct `Marketplace` in lib.rs). -/
structure Marketplace where
  owner : AccountId
  owner_cut : Nat
  listings : List (String × Listing)
  storage_deposits : List (AccountId × Nat)
  by_owner_id : List (AccountId × List String)
  by_nft_contract_id : List (AccountId × List String)
  deriving Repr, DecidableEq

/-- Ambient host inputs supplied by the NEAR runtime for one call. -/
structure Env where
  signer : AccountId
  predecessor : AccountId
  attached_deposit : Nat
  block_timestamp : Nat
  deriving Repr, DecidableEq

/-- View `storage_balance_of`: recorded balance, defaulting to 0. -/
def storage_balance_of (m : Marketplace) (account_id : AccountId) : Nat :=
  (mget m.storage_deposits account_id).getD 0

/-- Method `storage_deposit`: requires at least `STORAGE_PER_SALE` attached,
accumulates the attached deposit onto the target account's balance
(target defaults to the caller). -/
def storage_deposit (env : Env) (m : Marketplace) (account_id : Option AccountId) :
    Option Marketplace :=
  let storage_account_id := account_id.getD env.predecessor
  let deposit := env.attached_deposit
  if deposit < STORAGE_PER_SALE then none
  else
    let balance := (mget m.storage_deposits storage_account_id).getD 0
    match checkedAdd balance deposit with
    | none => none
    | some b => some { m with storage_deposits := mput m.storage_deposits storage_account_id b }

/-- Method `storage_withdraw`: requires exactly 1 yoctoNEAR attached, removes
the caller's balance, re-reserves `len(by_owner_id[caller]) * STORAGE_PER_SALE`
and transfers the excess to the caller.  The second component of the result is
the list of outgoing transfers. -/
def storage_withdraw (env : Env) (m : Marketplace) :
    Option (Marketplace × List (AccountId × Nat)) :=
  if env.attached_deposit ≠ 1 then none
  else
    let owner_id := env.predecessor
    let amount := (mget m.storage_deposits owner_id).getD 0
    let m1 : Marketplace := { m with storage_deposits := mdel m.storage_deposits owner_id }
    let len := ((mget m1.by_owner_id owner_id).map List.length).getD 0
    match checkedMul len STORAGE_PER_SALE with
    | none => none
    | some diff =>
      match checkedSub amount diff with
      | none => none
      | some excess =>
        let transfers := if 0 < excess then [(owner_id, excess)] else []
        let m2 : Marketplace :=
          if 0 < diff then { m1 with storage_deposits := mput m1.storage_deposits owner_id diff }
          else m1
        some (m2, transfers)

/-- The field overwrite performed by `create_listing` on the placeholder
listing: seller, starting price, end/start time and auction flag; all other
fields (`approval_id`, `nft_contract_id`, `token_id`, `highest_bidder`,
`highest_price`) are kept. -/
def overwrite_terms (seller : AccountId) (starting_price end_at started_at : Nat)
    (is_auction : Bool) (listing : Listing) : Listing :=
  { listing with
      seller := seller,
      starting_price := starting_price,
      end_at := end_at,
      started_at := started_at,
      is_auction := is_auction }

/-- Method `create_listing`: requires a placeholder listing at the composite
key; overwrites its seller, starting price, timing and auction flag.  The
`_highest_price` argument is accepted but never used, as in the source. -/
def create_listing (env : Env) (m : Marketplace) (nft_address token_id : String)
    (starting_price : Nat) (end_at started_at : Nat) (_highest_price : Nat)
    (is_auction : Bool) : Option Marketplace :=
  let seller := env.signer
  let key := compositeKey nft_address token_id
  match mget m.listings key with
  | none => none
  | some listing =>
    let updated : Listing :=
      overwrite_terms seller starting_price end_at started_at is_auction listing
    some { m with listings := mput m.listings key updated }

/-- Predicate `is_on_auction`: `block_timestamp > started_at && block_timestamp < end_at`. -/
def is_on_auction (now : Nat) (listing : Listing) : Bool :=
  decide (listing.started_at < now) && decide (now < listing.end_at)

/-- Method `bid`: requires 1 yoctoNEAR, an existing auction listing whose
window is on, a caller distinct from the seller and a price strictly above the
current highest.  The source then mutates a local copy of the listing and
never writes it back to `self.listings`, so the state is returned unchanged. -/
def bid (env : Env) (m : Marketplace) (nft_address token_id : String) (price : Nat) :
    Option Marketplace :=
  if env.attached_deposit ≠ 1 then none
  else
    let signer := env.signer
    let key := compositeKey nft_address token_id
    match mget m.listings key with
    | none => none
    | some listing =>
      if listing.is_auction = true then
        if is_on_auction env.block_timestamp listing = true then
          if listing.seller ≠ signer then
            if listing.highest_price < price then some m
            else none
          else none
        else none
      else none

/-- Method `cancel_listing`: seller-only; removes the listing from
`self.listings` directly, without touching `by_owner_id` or
`by_nft_contract_id` (it does not go through `internal_remove_listing`). -/
def cancel_listing (env : Env) (m : Marketplace) (nft_address token_id : String) :
    Option Marketplace :=
  let key := compositeKey nft_address token_id
  match mget m.listings key with
  | none => none
  | some listing =>
    if env.signer = listing.seller then
      some { m with listings := mdel m.listings key }
    else none

/-- Method `set_price`: fixed-price only, seller-only; overwrites
`starting_price` and writes the listing back. -/
def set_price (env : Env) (m : Marketplace) (nft_address token_id : String) (price : Nat) :
    Option Marketplace :=
  let key := compositeKey nft_address token_id
  match mget m.listings key with
  | none => none
  | some listing =>
    if listing.is_auction = false then
      if env.signer = listing.seller then
        some { m with listings := mput m.listings key { listing with starting_price := price } }
      else none
    else none

/-- Internal removal path (`internal_remove_listing` in internal.rs): removes
the listing, panics if either index entry is missing, shrinks both index sets
and deletes an index entry once its set becomes empty.  Returns the removed
listing. -/
def internal_remove_listing (m : Marketplace) (nft_contract_id token_id : String) :
    Option (Marketplace × Listing) :=
  let key := compositeKey nft_contract_id token_id
  match mget m.listings key with
  | none => none
  | some listing =>
    let m1 : Marketplace := { m with listings := mdel m.listings key }
    match mget m1.by_owner_id listing.seller with
    | none => none
    | some owner_set =>
      let owner_set1 := sdel owner_set key
      let m2 : Marketplace :=
        if owner_set1.isEmpty then { m1 with by_owner_id := mdel m1.by_owner_id listing.seller }
        else { m1 with by_owner_id := mput m1.by_owner_id listing.seller owner_set1 }
      match mget m2.by_nft_contract_id nft_contract_id with
      | none => none
      | some nft_set =>
        let nft_set1 := sdel nft_set token_id
        let m3 : Marketplace :=
          if nft_set1.isEmpty then
            { m2 with by_nft_contract_id := mdel m2.by_nft_contract_id nft_contract_id }
          else
            { m2 with by_nft_contract_id := mput m2.by_nft_contract_id nft_contract_id nft_set1 }
        some (m3, listing)

/-- The settlement scheduled by `process_purchase`: `resolve_purchase` will
later run with this seller and price. -/
structure Settlement where
  seller : AccountId
  price : Nat
  deriving Repr, DecidableEq

/-- Method `process_purchase`: removes the listing through
`internal_remove_listing`, issues the external `nft_transfer_payout` request
and schedules `resolve_purchase(seller, price)` as the continuation. -/
def process_purchase (m : Marketplace) (nft_contract_id token_id : String)
    (price : Nat) (seller _buyer : AccountId) : Option (Marketplace × Settlement) :=
  (internal_remove_listing m nft_contract_id token_id).map
    (fun p => (p.1, { seller := seller, price := price }))

/-- Method `purchase_nft`: resolves the listing; in auction mode requires the
window on, a positive highest price, the caller to be the recorded highest
bidder (panicking if there is none) and the attached deposit to cover it; in
fixed-price mode requires the deposit to cover `starting_price`.  Then hands
off to `process_purchase` with the full attached deposit as the price. -/
def purchase_nft (env : Env) (m : Marketplace) (nft_address token_id : String) :
    Option (Marketplace × Settlement) :=
  let signer := env.signer
  let deposit := env.attached_deposit
  let key := compositeKey nft_address token_id
  match mget m.listings key with
  | none => none
  | some listing =>
    if listing.is_auction = true then
      if is_on_auction env.block_timestamp listing = true ∧ 0 < listing.highest_price then
        match listing.highest_bidder with
        | none => none
        | some hb =>
          if hb = signer then
            if listing.highest_price ≤ deposit then
              process_purchase m nft_address token_id deposit listing.seller signer
            else none
          else none
      else none
    else
      if listing.starting_price ≤ deposit then
        process_purchase m nft_address token_id deposit listing.seller signer
      else none

/-- Continuation `resolve_purchase`: computes the platform cut with saturating
arithmetic and pays `price - owner_cut` to the seller and `owner_cut` to the
platform owner, returning the price.  The first component lists the outgoing
transfers in order. -/
def resolve_purchase (m : Marketplace) (seller : AccountId) (price : Nat) :
    List (AccountId × Nat) × Nat :=
  let owner_cut := saturatingMul price m.owner_cut / 10000
  ([(seller, price - owner_cut), (m.owner, owner_cut)], price)

/-! ## Basic lemmas about the map and set operations -/

theorem mget_mdel_self {α : Type} (m : List (String × α)) (k : String) :
    mget (mdel m k) k = none := by
  induction m with
  | nil => rfl
  | cons p rest ih =>
    obtain ⟨k0, v0⟩ := p
    by_cases h : k0 = k <;> simp [mdel, mget, h, ih]

theorem mget_mdel_ne {α : Type} (m : List (String × α)) (k k' : String) (h : k' ≠ k) :
    mget (mdel m k) k' = mget m k' := by
  induction m with
  | nil => rfl
  | cons p rest ih =>
    obtain ⟨k0, v0⟩ := p
    by_cases h0 : k0 = k
    · subst h0
      have h1 : k0 ≠ k' := fun hc => h hc.symm
      simp [mdel, mget, h1, ih]
    · simp [mdel, mget, h0, ih]

theorem mget_mput_self {α : Type} (m : List (String × α)) (k : String) (v : α) :
    mget (mput m k v) k = some v := by
  simp [mput, mget]

theorem mget_mput {α : Type} (m : List (String × α)) (k : String) (v : α) (k' : String) :
    mget (mput m k v) k' = if k = k' then some v else mget m k' := by
  by_cases h : k = k'
  · subst h
    simp [mput, mget]
  · have h' : k' ≠ k := fun hc => h hc.symm
    simp [mput, mget, h, mget_mdel_ne m k k' h']

theorem is_on_auction_eq_true (now : Nat) (l : Listing) :
    is_on_auction now l = true ↔ (l.started_at < now ∧ now < l.end_at) := by
  simp [is_on_auction]

/-! ## Supporting general theorems -/

/-- A successful `bid` returns the contract state unchanged: the validated
update of the listing's highest price and bidder is made on a local copy that
is never written back. -/
theorem bid_never_mutates (env : Env) (m : Marketplace) (nft_address token_id : String)
    (price : Nat) :
    (bid env m nft_address token_id price).elim True (fun m' => m' = m) := by
  unfold bid
  by_cases hd : env.attached_deposit ≠ 1
  · simp [hd]
  · cases hl : mget m.listings (compositeKey nft_address token_id) with
    | none => simp [hd, hl]
    | some l => simp only [hd, hl, if_false]; split_ifs <;> simp

/-- A successful `cancel_listing` leaves both secondary indices untouched:
removal does not go through `internal_remove_listing`. -/
theorem cancel_listing_keeps_indices (env : Env) (m : Marketplace)
    (nft_address token_id : String) :
    (cancel_listing env m nft_address token_id).elim True
      (fun m' => m'.by_owner_id = m.by_owner_id ∧
        m'.by_nft_contract_id = m.by_nft_contract_id) := by
  unfold cancel_listing
  cases hl : mget m.listings (compositeKey nft_address token_id) with
  | none => simp [hl]
  | some l => simp only [hl]; split_ifs <;> simp

/-! ## Concrete sample states -/

/-- A fixed-price listing owned by `alice`. -/
def listingA : Listing :=
  { seller := "alice", approval_id := 1, nft_contract_id := "nftc", token_id := "t1",
    starting_price := 100, started_at := 0, end_at := 0,
    highest_bidder := none, highest_price := 0, is_auction := false }

/-- A state whose listings, owner index and contract index are mutually
consistent: the single listing `"nftc.t1"` is owned by `alice`, and both index
entries record exactly it. -/
def stateA : Marketplace :=
  { owner := "own", owner_cut := 1000,
    listings := [("nftc.t1", listingA)],
    storage_deposits := [("alice", STORAGE_PER_SALE)],
    by_owner_id := [("alice", ["nftc.t1"])],
    by_nft_contract_id := [("nftc", ["t1"])] }

/-- The same listing in auction mode with window `(0, 10)` and no bid yet. -/
def listingB : Listing :=
  { listingA with
      end_at := 10,
      is_auction := true }

/-- `stateA` with the listing put into auction mode. -/
def stateB : Marketplace :=
  { stateA with
      listings := [("nftc.t1", listingB)] }

/-- The auction listing with a recorded highest bid of 5 by `bob`. -/
def listingC : Listing :=
  { listingB with
      highest_bidder := some "bob",
      highest_price := 5 }

/-- `stateA` with the auction listing carrying `bob`'s bid of 5. -/
def stateC : Marketplace :=
  { stateA with
      listings := [("nftc.t1", listingC)] }

/-- The auction listing with window `(5, 10)`. -/
def listingI : Listing :=
  { listingB with
      started_at := 5 }

/-- `stateA` with the auction listing whose window is `(5, 10)`. -/
def stateI : Marketplace :=
  { stateA with
      listings := [("nftc.t1", listingI)] }

/-- A state holding only a placeholder listing (as inserted by the pre-approval
hook) and an empty storage-deposit table. -/
def placeholderL : Listing :=
  { seller := "nftc", approval_id := 7, nft_contract_id := "nftc", token_id := "t1",
    starting_price := 0, started_at := 0, end_at := 0,
    highest_bidder := none, highest_price := 0, is_auction := false }

/-- State with the placeholder listing and no storage balances at all. -/
def stateG : Marketplace :=
  { owner := "own", owner_cut := 1000, listings := [("nftc.t1", placeholderL)],
    storage_deposits := [], by_owner_id := [], by_nft_contract_id := [] }

/-- `stateA` where `alice` has balance `3 * STORAGE_PER_SALE` and two open
listings recorded in the owner index. -/
def stateH : Marketplace :=
  { stateA with
      storage_deposits := [("alice", 3 * STORAGE_PER_SALE)],
      by_owner_id := [("alice", ["nftc.t1", "nftc.t2"])] }

/-- An empty marketplace whose platform cut is the maximal 10000 basis points. -/
def stateMax : Marketplace :=
  { owner := "own", owner_cut := 10000, listings := [], storage_deposits := [],
    by_owner_id := [], by_nft_contract_id := [] }

/-- An empty marketplace with a 1000 basis-point (10%) platform cut. -/
def stateF : Marketplace :=
  { owner := "own", owner_cut := 1000, listings := [], storage_deposits := [],
    by_owner_id := [], by_nft_contract_id := [] }

/-! ## Claim theorems -/

/-- C1: counterexample to the index-consistency invariant.  `stateA` is
index-consistent (its single listing `"nftc.t1"` with seller `alice` is
mirrored exactly by both indices), yet after a successful `cancel_listing` by
the seller the listing is gone while `OwnerIndex["alice"]` still contains the
key and `RegistryIndex["nftc"]` still contains the token id: `cancel_listing`
removes the listing directly instead of going through
`internal_remove_listing`, so the indices drift. -/
theorem cancel_listing_leaves_dangling_index :
    mget stateA.listings "nftc.t1" = some listingA ∧
    listingA.seller = "alice" ∧
    (cancel_listing ⟨"alice", "alice", 0, 0⟩ stateA "nftc" "t1").map
        (fun m1 => (mget m1.listings "nftc.t1",
          mget m1.by_owner_id "alice", mget m1.by_nft_contract_id "nftc"))
      = some (none, some ["nftc.t1"], some ["t1"]) := by
  decide

/-- C2: counterexample to bid persistence.  In `stateB` the auction listing
`"nftc.t1"` has `highest_price = 0` and no bidder; `bob`'s bid of 7 at time 5
passes every precondition (auction on, not the seller, strictly higher price,
1 yoctoNEAR attached) and succeeds, yet the returned state is exactly the
input state: the listing still records `highest_price = 0` and no bidder,
because the source never writes the updated local copy back. -/
theorem bid_update_not_persisted :
    bid ⟨"bob", "bob", 1, 5⟩ stateB "nftc" "t1" 7 = some stateB ∧
    mget stateB.listings "nftc.t1" = some listingB ∧
    listingB.is_auction = true ∧
    listingB.highest_price = 0 ∧
    listingB.highest_bidder = none := by
  decide

/-- C4 counterexample: with the maximal cut of 10000 basis points and
`price = 2^128 - 1` the claimed exact value `floor(price * 10000 / 10000)`
is `price` itself, but the saturating multiplication caps at `2^128 - 1`
before the division, so the platform owner is paid only
`(2^128 - 1) / 10000`. -/
theorem resolve_purchase_cut_saturates :
    (resolve_purchase stateMax "alice" U128MAX).1
      = [("alice", U128MAX - U128MAX / 10000), ("own", U128MAX / 10000)] ∧
    U128MAX / 10000 ≠ U128MAX * 10000 / 10000 := by
  decide

/-- C4 (amended): whenever `price * cutBps` fits in a `u128` (and the cut is
at most 10000 basis points), the continuation computes the exact
`owner_cut = floor(price * cutBps / 10000)`, pays the seller exactly
`price - owner_cut` and the platform owner exactly `owner_cut`, and the cut
never exceeds the price (so the subtraction cannot underflow). -/
theorem resolve_purchase_exact (m : Marketplace) (seller : AccountId) (price : Nat)
    (hcut : m.owner_cut ≤ 10000) (hmul : price * m.owner_cut ≤ U128MAX) :
    resolve_purchase m seller price =
      ([(seller, price - price * m.owner_cut / 10000),
        (m.owner, price * m.owner_cut / 10000)], price) ∧
    price * m.owner_cut / 10000 ≤ price := by
  constructor
  · simp [resolve_purchase, saturatingMul, Nat.min_eq_left hmul]
  · calc price * m.owner_cut / 10000
        ≤ price * 10000 / 10000 := Nat.div_le_div_right (Nat.mul_le_mul_left _ hcut)
      _ = price := Nat.mul_div_cancel price (by norm_num)

/-- C4 witness, which is also the spec's worked example: with a 1000
basis-point cut and price 150, the seller receives 135 and the owner 15. -/
theorem resolve_purchase_exact_witness :
    resolve_purchase stateF "alice" 150 = ([("alice", 135), ("own", 15)], 150) ∧
    150 * stateF.owner_cut / 10000 ≤ 150 :=
  ⟨((resolve_purchase_exact stateF "alice" 150 (by decide) (by decide)).1).trans (by decide),
    (resolve_purchase_exact stateF "alice" 150 (by decide) (by decide)).2⟩

/-- C5 counterexample: in `stateG` the storage-deposit table is empty, so the
signer `alice` has prepaid balance 0, strictly below the per-listing quota;
nevertheless `create_listing` succeeds (the placeholder exists) and records
`alice` as a seller of the listing.  `create_listing` performs no
storage-balance check at all. -/
theorem create_listing_succeeds_with_zero_balance :
    mget stateG.storage_deposits "alice" = none ∧
    (0 : Nat) < STORAGE_PER_SALE ∧
    (create_listing ⟨"alice", "alice", 0, 0⟩ stateG "nftc" "t1" 100 10 1 0 true).map
        (fun m1 => ((mget m1.listings "nftc.t1").map Listing.seller, m1.storage_deposits))
      = some (some "alice", []) := by
  decide

/-- C5 (amended): `create_listing` succeeds exactly when a placeholder listing
exists at the composite key — independently of any storage balance — and a
successful call leaves the storage-deposit table entirely unchanged, so the
storage-solvency invariant is not enforced at listing creation. -/
theorem create_listing_no_balance_check (env : Env) (m : Marketplace)
    (nft_address token_id : String) (sp ea sa hp : Nat) (au : Bool) :
    ((create_listing env m nft_address token_id sp ea sa hp au).isSome
        = (mget m.listings (compositeKey nft_address token_id)).isSome) ∧
    (create_listing env m nft_address token_id sp ea sa hp au).elim True
      (fun m' => m'.storage_deposits = m.storage_deposits) := by
  cases hl : mget m.listings (compositeKey nft_address token_id) <;>
    simp [create_listing, hl]

/-- C8: `storage_deposit` fails (aborting with no state change) exactly when
the attached amount is below `STORAGE_PER_SALE` (or the balance addition would
overflow a `u128`); otherwise it succeeds and the target account's balance —
the target defaulting to the caller when omitted — ends at exactly the prior
balance plus the attached amount. -/
theorem storage_deposit_spec (env : Env) (m : Marketplace) (acct : Option AccountId) :
    (storage_deposit env m acct).map
        (fun m' => storage_balance_of m' (acct.getD env.predecessor)) =
      (if STORAGE_PER_SALE ≤ env.attached_deposit ∧
          storage_balance_of m (acct.getD env.predecessor) + env.attached_deposit ≤ U128MAX
        then some (storage_balance_of m (acct.getD env.predecessor) + env.attached_deposit)
        else none) := by
  unfold storage_deposit checkedAdd storage_balance_of
  by_cases h1 : env.attached_deposit < STORAGE_PER_SALE
  · simp [h1, Nat.not_le.mpr h1]
  · have h1' : STORAGE_PER_SALE ≤ env.attached_deposit := Nat.not_lt.mp h1
    by_cases h2 : (mget m.storage_deposits (acct.getD env.predecessor)).getD 0
        + env.attached_deposit ≤ U128MAX
    · simp [h1, h1', h2, mget_mput_self]
    · simp [h1, h1', h2]

/-- C9: `create_listing` fails, leaving the state unchanged, when no
placeholder exists at the composite key; when the placeholder exists the call
succeeds, every table other than the listings (storage deposits, both indices,
owner, cut) is unchanged, every listing at a different key is unchanged, and
the listing at the key is the placeholder with only its seller, starting
price, start/end time and auction flag overwritten (the record update leaves
`approval_id`, `nft_contract_id`, `token_id`, `highest_price` and
`highest_bidder` exactly as in the placeholder). -/
theorem create_listing_frame (env : Env) (m : Marketplace)
    (nft_address token_id : String) (sp ea sa hp : Nat) (au : Bool) :
    ((create_listing env m nft_address token_id sp ea sa hp au).isSome
        = (mget m.listings (compositeKey nft_address token_id)).isSome) ∧
    (create_listing env m nft_address token_id sp ea sa hp au).elim True
      (fun m' =>
        m'.storage_deposits = m.storage_deposits ∧
        m'.by_owner_id = m.by_owner_id ∧
        m'.by_nft_contract_id = m.by_nft_contract_id ∧
        m'.owner = m.owner ∧
        m'.owner_cut = m.owner_cut ∧
        ∀ k, mget m'.listings k =
          (if compositeKey nft_address token_id = k then
            (mget m.listings k).map (overwrite_terms env.signer sp ea sa au)
          else mget m.listings k)) := by
  cases hl : mget m.listings (compositeKey nft_address token_id) with
  | none => simp [create_listing, hl]
  | some l0 =>
    have hres : create_listing env m nft_address token_id sp ea sa hp au
        = some { m with listings := mput m.listings (compositeKey nft_address token_id) (overwrite_terms env.signer sp ea sa au l0) } := by
      simp only [create_listing]
      rw [hl]
    rw [hres]
    refine ⟨rfl, rfl, rfl, rfl, rfl, rfl, fun k => ?_⟩
    show mget (mput m.listings (compositeKey nft_address token_id) _) k = _
    rw [mget_mput]
    by_cases hk : compositeKey nft_address token_id = k
    · rw [if_pos hk, if_pos hk, ← hk, hl]
      rfl
    · rw [if_neg hk, if_neg hk]

/-- C10: both `bid` and `storage_withdraw` begin with `assert_one_yocto`, so
whenever the attached deposit differs from exactly 1 yoctoNEAR either call
aborts (modelled as `none`, which on NEAR rolls back every state change)
regardless of all other arguments and of the state. -/
theorem one_yocto_required (env : Env) (m : Marketplace)
    (nft_address token_id : String) (price : Nat)
    (h : env.attached_deposit ≠ 1) :
    bid env m nft_address token_id price = none ∧
    storage_withdraw env m = none := by
  constructor
  · simp [bid, h]
  · simp [storage_withdraw, h]

/-- C10 witness: with no deposit attached, both calls abort on `stateB`. -/
theorem one_yocto_required_witness :
    bid ⟨"bob", "bob", 0, 5⟩ stateB "nftc" "t1" 7 = none ∧
    storage_withdraw ⟨"bob", "bob", 0, 5⟩ stateB = none :=
  one_yocto_required ⟨"bob", "bob", 0, 5⟩ stateB "nftc" "t1" 7 (by decide)

/-- Helper for the purchase claims: `internal_remove_listing` succeeds as soon
as the listing exists and both index entries for it are present. -/
theorem internal_remove_listing_isSome (m : Marketplace) (nft_address token_id : String)
    (l : Listing)
    (hl : mget m.listings (compositeKey nft_address token_id) = some l)
    (hown : (mget m.by_owner_id l.seller).isSome = true)
    (hreg : (mget m.by_nft_contract_id nft_address).isSome = true) :
    (internal_remove_listing m nft_address token_id).isSome = true := by
  cases hos : mget m.by_owner_id l.seller with
  | none => rw [hos] at hown; cases hown
  | some os =>
    cases hns : mget m.by_nft_contract_id nft_address with
    | none => rw [hns] at hreg; cases hreg
    | some ns =>
      simp only [internal_remove_listing, hl, hos]
      split_ifs with hc
      · simp only [hns]
        split <;> rfl
      · simp only [hns]
        split <;> rfl

/-- C3 counterexample: in `stateC` the auction listing has window `(0, 10)`,
a recorded highest bid of 5 by `bob`, and consistent indices.  At time 10 the
window is closed (`now ≥ end_at`), `highest_price > 0`, the caller `bob` is
the recorded highest bidder and attaches 5 ≥ `highest_price` — the claim says
this purchase succeeds, but the code rejects it: `purchase_nft` requires
`is_on_auction`, i.e. the window still open, not closed. -/
theorem purchase_rejected_when_window_closed :
    mget stateC.listings "nftc.t1" = some listingC ∧
    listingC.is_auction = true ∧
    listingC.end_at ≤ 10 ∧
    0 < listingC.highest_price ∧
    listingC.highest_bidder = some "bob" ∧
    listingC.highest_price ≤ 5 ∧
    (mget stateC.by_owner_id listingC.seller).isSome = true ∧
    (mget stateC.by_nft_contract_id "nftc").isSome = true ∧
    purchase_nft ⟨"bob", "bob", 5, 10⟩ stateC "nftc" "t1" = none := by
  decide

/-- C3 (amended): provided the listing exists and both index entries for it
are present (as in every index-consistent state), an auction purchase succeeds
iff the window is still open in the strict sense (`started_at < now < end_at`),
the highest price is positive, the caller is the recorded highest bidder and
the attached deposit covers the highest price; a fixed-price purchase succeeds
iff the attached deposit covers `starting_price`, regardless of the timing
fields. -/
theorem purchase_nft_succeeds_iff (env : Env) (m : Marketplace)
    (nft_address token_id : String) (l : Listing)
    (hl : mget m.listings (compositeKey nft_address token_id) = some l)
    (hown : (mget m.by_owner_id l.seller).isSome = true)
    (hreg : (mget m.by_nft_contract_id nft_address).isSome = true) :
    (purchase_nft env m nft_address token_id).isSome = true ↔
      (if l.is_auction = true then
        l.started_at < env.block_timestamp ∧ env.block_timestamp < l.end_at ∧
          0 < l.highest_price ∧ l.highest_bidder = some env.signer ∧
          l.highest_price ≤ env.attached_deposit
      else l.starting_price ≤ env.attached_deposit) := by
  have hpp : (process_purchase m nft_address token_id env.attached_deposit l.seller
      env.signer).isSome = true := by
    have h0 := internal_remove_listing_isSome m nft_address token_id l hl hown hreg
    cases hir : internal_remove_listing m nft_address token_id with
    | none => rw [hir] at h0; cases h0
    | some p => simp [process_purchase, hir]
  simp only [purchase_nft, hl]
  by_cases ha : l.is_auction = true
  · rw [if_pos ha, if_pos ha]
    by_cases hw : is_on_auction env.block_timestamp l = true ∧ 0 < l.highest_price
    · rw [if_pos hw]
      obtain ⟨hw1, hw2⟩ := hw
      rw [is_on_auction_eq_true] at hw1
      cases hb : l.highest_bidder with
      | none => simp [hw1, hw2]
      | some hbdr =>
        dsimp only
        by_cases hs : hbdr = env.signer
        · rw [if_pos hs]
          subst hs
          by_cases hd : l.highest_price ≤ env.attached_deposit
          · rw [if_pos hd]
            simp [hpp, hw1, hw2, hd]
          · rw [if_neg hd]
            simp [hw1, hw2, hd]
        · rw [if_neg hs]
          simp [hw1, hw2, hs]
    · rw [if_neg hw]
      rw [is_on_auction_eq_true] at hw
      simp only [Option.isSome_none, Bool.false_eq_true, false_iff]
      intro hcon
      exact hw ⟨⟨hcon.1, hcon.2.1⟩, hcon.2.2.1⟩
  · rw [if_neg ha, if_neg ha]
    by_cases hd : l.starting_price ≤ env.attached_deposit
    · rw [if_pos hd]
      simp [hpp, hd]
    · rw [if_neg hd]
      simp [hd]

/-- C3 witness: in `stateC` at time 6 (window open) the recorded highest
bidder `bob` attaching 5 succeeds. -/
theorem purchase_nft_succeeds_iff_witness :
    (purchase_nft ⟨"bob", "bob", 5, 6⟩ stateC "nftc" "t1").isSome = true :=
  (purchase_nft_succeeds_iff ⟨"bob", "bob", 5, 6⟩ stateC "nftc" "t1" listingC
    (by decide) (by decide) (by decide)).mpr (by decide)

/-- C6: for a caller with recorded balance `B` owning `N` open listings (as
counted by the owner index), provided exactly 1 yoctoNEAR is attached, the
balance is within `u128` range and covers the reservation `N * quota`,
`storage_withdraw` succeeds, transfers exactly `B - N * quota` to the caller
(no transfer at all when that difference is zero) and leaves exactly
`N * quota` recorded as the caller's remaining balance. -/
theorem storage_withdraw_spec (env : Env) (m : Marketplace) (B N : Nat)
    (hdep : env.attached_deposit = 1)
    (hB : storage_balance_of m env.predecessor = B)
    (hN : ((mget m.by_owner_id env.predecessor).map List.length).getD 0 = N)
    (hres : N * STORAGE_PER_SALE ≤ B)
    (hmax : B ≤ U128MAX) :
    (storage_withdraw env m).map (fun p => (storage_balance_of p.1 env.predecessor, p.2)) =
      some (N * STORAGE_PER_SALE,
        if 0 < B - N * STORAGE_PER_SALE then
          [(env.predecessor, B - N * STORAGE_PER_SALE)] else []) := by
  have hmul : N * STORAGE_PER_SALE ≤ U128MAX := le_trans hres hmax
  simp only [storage_balance_of] at hB
  simp only [storage_withdraw, hdep, ne_eq, not_true_eq_false, if_false, ite_false]
  rw [hB, hN]
  simp only [checkedMul, if_pos hmul, checkedSub, if_pos hres]
  by_cases hz : 0 < N * STORAGE_PER_SALE
  · rw [if_pos hz]
    simp [storage_balance_of, mget_mput_self]
  · have hz0 : N * STORAGE_PER_SALE = 0 := Nat.eq_zero_of_not_pos hz
    rw [if_neg hz]
    simp [storage_balance_of, mget_mdel_self, hz0]

/-- C6 witness: in `stateH` the caller `alice` has balance `3 * quota` and two
open listings; withdrawal transfers exactly one quota and leaves two quotas
recorded. -/
theorem storage_withdraw_spec_witness :
    (storage_withdraw ⟨"alice", "alice", 1, 0⟩ stateH).map
        (fun p => (storage_balance_of p.1 "alice", p.2)) =
      some (2 * STORAGE_PER_SALE, [("alice", STORAGE_PER_SALE)]) :=
  (storage_withdraw_spec ⟨"alice", "alice", 1, 0⟩ stateH (3 * STORAGE_PER_SALE) 2
    rfl (by decide) (by decide) (by decide) (by decide)).trans (by decide)

/-- C7 counterexample: in `stateI` the auction window is `[5, 10)` according
to the claim, and at time `now = started_at = 5` a bid of 7 by `bob` (not the
seller, strictly above the highest price 0, with 1 yoctoNEAR attached) should
succeed; the code rejects it, because `is_on_auction` requires
`now > started_at` strictly. -/
theorem bid_rejected_at_window_start :
    mget stateI.listings "nftc.t1" = some listingI ∧
    listingI.is_auction = true ∧
    listingI.started_at ≤ 5 ∧
    (5 : Nat) < listingI.end_at ∧
    listingI.seller ≠ "bob" ∧
    listingI.highest_price < 7 ∧
    bid ⟨"bob", "bob", 1, 5⟩ stateI "nftc" "t1" 7 = none := by
  decide

/-- C7 (amended): for an existing auction listing, with exactly 1 yoctoNEAR
attached, `bid(price)` succeeds exactly when the current time lies strictly
inside the window — `started_at < now < end_at`, exclusive at both ends — the
caller is not the seller and the price strictly exceeds the current highest
price. -/
theorem bid_succeeds_iff (env : Env) (m : Marketplace) (nft_address token_id : String)
    (price : Nat) (l : Listing)
    (hdep : env.attached_deposit = 1)
    (hl : mget m.listings (compositeKey nft_address token_id) = some l)
    (hauc : l.is_auction = true) :
    (bid env m nft_address token_id price).isSome = true ↔
      (l.started_at < env.block_timestamp ∧ env.block_timestamp < l.end_at ∧
        l.seller ≠ env.signer ∧ l.highest_price < price) := by
  simp [bid, hdep, hl, hauc, is_on_auction]
  split_ifs with h1 h2 h3 <;> simp_all

/-- C7 witness: in `stateI` at time 6 (strictly inside the window `(5, 10)`)
`bob`'s bid of 7 passes all checks. -/
theorem bid_succeeds_iff_witness :
    (bid ⟨"bob", "bob", 1, 6⟩ stateI "nftc" "t1" 7).isSome = true :=
  (bid_succeeds_iff ⟨"bob", "bob", 1, 6⟩ stateI "nftc" "t1" 7 listingI
    rfl (by decide) (by decide)).mpr (by decide)
